import Mathlib

/-!
Shallow embedding of the zsh curses module (`Src/Modules/curses.c`):
the window registry, the color-pair cache, the attribute/scroll togglers
and the key-event decoder, together with theorems checking the
natural-language specification against the code.

Conventions used throughout:
* C functions returning `0` for success and `1` for failure are embedded
  as functions returning a `Bool` error flag (`false` = success, `true` =
  failure, i.e. the C return value `1`).
* The curses library itself is external; its fallible entry points
  (`init_pair`, `wcolor_set`, `delwin`, `newwin`, `wscrl`) are modelled by
  oracles collected in a `CursesEnv` record, so that every definition
  stays executable and deterministic for a fixed environment.
* The C `short next_cp` counter is embedded as a `Nat`; the 16-bit wrap
  is irrelevant to the claims, which concern counts on the order of
  `COLOR_PAIRS`.
-/

set_option autoImplicit false

namespace ZCurses

/-- Error code `ZCURSES_EINVALID` (window name invalid). -/
def ZCURSES_EINVALID : Nat := 1

/-- Error code `ZCURSES_EDEFINED` (window already defined). -/
def ZCURSES_EDEFINED : Nat := 2

/-- Error code `ZCURSES_EUNDEFINED` (window undefined). -/
def ZCURSES_EUNDEFINED : Nat := 3

/-- Validation criterion bit `ZCURSES_UNUSED` (the name must not exist). -/
def ZCURSES_UNUSED : Nat := 1

/-- Validation criterion bit `ZCURSES_USED` (the name must exist). -/
def ZCURSES_USED : Nat := 2

/-- Attribute operation selector `ZCURSES_ATTRON`. -/
def ZCURSES_ATTRON : Nat := 1

/-- Attribute operation selector `ZCURSES_ATTROFF`. -/
def ZCURSES_ATTROFF : Nat := 2

/-- Lookup in an association list by key, first match wins.  This embeds
`gethashnode` on the `zcurses_colorpairs` hash table, whose observable
behaviour is exactly that of a finite string-keyed map. -/
def lookupPair : List (String × Nat) → String → Option Nat
  | [], _ => none
  | (k, v) :: ps, key => if k = key then some v else lookupPair ps key

/-- Insert-or-replace in an association list.  This embeds `addhashnode`,
which replaces an existing node carrying the same name. -/
def insertPair : List (String × Nat) → String → Nat → List (String × Nat)
  | [], key, v => [(key, v)]
  | (k, w) :: ps, key, v =>
      if k = key then (key, v) :: ps else (k, w) :: insertPair ps key v

/-- Split a character list at the first slash, embedding
`bg = strchr(cp, '/')` followed by `*bg = '\0'` in `zcurses_colorset`:
the part before the first slash and the part after it. -/
def splitSlashAux : List Char → Option (List Char × List Char)
  | [] => none
  | c :: cs =>
      if c = '/' then some ([], cs)
      else
        match splitSlashAux cs with
        | none => none
        | some (a, b) => some (c :: a, b)

/-- Split a string at its first `'/'` into foreground and background
parts; `none` when the string has no slash. -/
def splitFirstSlash (s : String) : Option (String × String) :=
  match splitSlashAux s.data with
  | none => none
  | some (a, b) => some (⟨a⟩, ⟨b⟩)

/-- The fixed color-name table `zcurses_colors` with the standard curses
color constants `COLOR_BLACK` .. `COLOR_WHITE` (0..7). -/
def zcurses_colors : List (String × Nat) :=
  [("black", 0), ("red", 1), ("green", 2), ("yellow", 3),
   ("blue", 4), ("magenta", 5), ("cyan", 6), ("white", 7)]

/-- Color-name lookup `zcurses_color`: the C version returns `-1` for an
unknown name, embedded here as `none`. -/
def zcurses_color (c : String) : Option Nat :=
  (zcurses_colors.find? (fun p => p.1 == c)).map (fun p => p.2)

/-- Mutable state of the color subsystem: `zc_color_phase`, the
`next_cp` pair counter, and the `zcurses_colorpairs` cache. -/
structure ColorState where
  phase : Nat
  next_cp : Nat
  pairs : List (String × Nat)
deriving DecidableEq, Repr

/-- Oracles for the external curses library calls, so the embedding is
executable: `color_pairs` is the platform constant `COLOR_PAIRS`;
`init_pair_ok p f b` tells whether `init_pair(p, f, b)` succeeds;
`wcolor_set_ok p` whether `wcolor_set(w, p, NULL)` succeeds;
`delwin_ok h` whether `delwin` succeeds on handle `h`; `newwin` returns
the fresh handle, or `none` when allocation fails; `wscrl_ok n` whether
`wscrl(w, n)` succeeds. -/
structure CursesEnv where
  color_pairs : Nat
  init_pair_ok : Nat → Nat → Nat → Bool
  wcolor_set_ok : Nat → Bool
  delwin_ok : Nat → Bool
  newwin : Int → Int → Int → Int → Option Nat
  wscrl_ok : Int → Bool

/-- Embedding of `zcurses_colorset` (curses.c lines 254-305).  Returns
the new color state, the pair identifier passed to `wcolor_set` (or
`none` when the call failed before reaching it), and the error flag.
The allocation branch is entered when the bypass phase is active
(`zc_color_phase == 1`) or the key misses the cache; it unconditionally
sets the phase to 2, parses the key at its first slash, resolves both
color names, pre-increments `next_cp`, fails if the counter reaches
`COLOR_PAIRS` or `init_pair` rejects the pair, and otherwise records the
new mapping.  (The C `zalloc` out-of-memory path is not modelled.) -/
def zcurses_colorset (env : CursesEnv) (s : ColorState) (key : String) :
    ColorState × Option Nat × Bool :=
  if s.phase = 1 ∨ lookupPair s.pairs key = none then
    let s1 : ColorState := { s with phase := 2 }
    match splitFirstSlash key with
    | none => (s1, none, true)
    | some (fg, bg) =>
      match zcurses_color fg, zcurses_color bg with
      | some f, some b =>
        let s2 : ColorState := { s1 with next_cp := s1.next_cp + 1 }
        if env.color_pairs ≤ s2.next_cp ∨ env.init_pair_ok s2.next_cp f b = false then
          (s2, none, true)
        else
          let s3 : ColorState := { s2 with pairs := insertPair s2.pairs key s2.next_cp }
          (s3, some s2.next_cp, !env.wcolor_set_ok s2.next_cp)
      | _, _ => (s1, none, true)
  else
    match lookupPair s.pairs key with
    | some cp => (s, some cp, !env.wcolor_set_ok cp)
    | none => (s, none, true)

/-- Run `zcurses_colorset` over a list of keys, collecting the error
flag of each call. -/
def colorsetRun (env : CursesEnv) (s : ColorState) : List String → ColorState × List Bool
  | [] => (s, [])
  | k :: ks =>
      match zcurses_colorset env s k with
      | (s1, _, e) =>
        match colorsetRun env s1 ks with
        | (s2, es) => (s2, e :: es)

/-- A key is valid when it has a slash and both sides name known colors. -/
def validKey (key : String) : Bool :=
  match splitFirstSlash key with
  | some (fg, bg) => (zcurses_color fg).isSome && (zcurses_color bg).isSome
  | none => false

/-- A window record `struct zc_win`: the library handle, the name, and
the two flag bits `ZCWF_PERMANENT` and `ZCWF_SCROLL` of the `flags`
bitmask, embedded as the two booleans they encode. -/
structure ZCWin where
  win : Nat
  name : String
  permanent : Bool
  scroll : Bool
deriving DecidableEq, Repr

/-- Embedding of `zcurses_getwindowbyname`: first window in the registry
list whose name matches. -/
def zcurses_getwindowbyname (reg : List ZCWin) (name : String) : Option ZCWin :=
  reg.find? (fun w => w.name == name)

/-- Embedding of `zcurses_validate_window` (curses.c lines 176-200).
Returns the resolved window (or `none`) together with the `zc_errno`
value the C code stores in the global (`0` on success).  The C test
`strlen(win) < 1` is the empty-string test. -/
def zcurses_validate_window (reg : List ZCWin) (win : String) (criteria : Nat) :
    Option ZCWin × Nat :=
  if win = "" then (none, ZCURSES_EINVALID)
  else
    let target := zcurses_getwindowbyname reg win
    if target.isSome && criteria.testBit 0 then (none, ZCURSES_EDEFINED)
    else if target.isNone && criteria.testBit 1 then (none, ZCURSES_EUNDEFINED)
    else (target, 0)

/-- Outcome of `zccmd_addwin`, one constructor per return path. -/
inductive AddwinRes
  | ok
  | errValidate (e : Nat)
  | errAlloc
deriving DecidableEq, Repr

/-- Embedding of `zccmd_addwin` (curses.c lines 376-409): validate the
name against `ZCURSES_UNUSED`, ask `newwin` for a handle, and on success
append the record (flags zeroed by `zshcalloc`) at the end of the
registry (`zinsertlinknode` at `lastnode`).  The `atoi` conversion of
the geometry arguments is elided: the geometry is received as integers
and passed through to `newwin`. -/
def zccmd_addwin (env : CursesEnv) (reg : List ZCWin) (name : String)
    (nlines ncols begin_y begin_x : Int) : List ZCWin × AddwinRes :=
  let v := zcurses_validate_window reg name ZCURSES_UNUSED
  if v.1 = none ∧ v.2 ≠ 0 then (reg, AddwinRes.errValidate v.2)
  else
    match env.newwin nlines ncols begin_y begin_x with
    | none => (reg, AddwinRes.errAlloc)
    | some h => (reg ++ [⟨h, name, false, false⟩], AddwinRes.ok)

/-- Outcome of `zccmd_delwin`, one constructor per return path:
validation failure (with the `zc_errno` value reported), the permanent
window refusal, the bare `return 1` when `delwin` fails, and success. -/
inductive DelwinRes
  | ok
  | errValidate (e : Nat)
  | errPermanent
  | errRelease
deriving DecidableEq, Repr

/-- Remove the first window with the given name, embedding `remnode` on
the node found by the preceding lookup. -/
def removeWindow : List ZCWin → String → List ZCWin
  | [], _ => []
  | w :: ws, n => if w.name = n then ws else w :: removeWindow ws n

/-- Embedding of `zccmd_delwin` (curses.c lines 411-442): validate the
name against `ZCURSES_USED`, refuse the permanent window, call `delwin`
on the handle and keep the entry when it fails, otherwise remove the
entry from the registry.  (The defensive `getdata` null check has no
counterpart: a registry entry always carries its record.) -/
def zccmd_delwin (env : CursesEnv) (reg : List ZCWin) (name : String) :
    List ZCWin × DelwinRes :=
  match zcurses_validate_window reg name ZCURSES_USED with
  | (none, e) => (reg, DelwinRes.errValidate e)
  | (some w, _) =>
    if w.permanent then (reg, DelwinRes.errPermanent)
    else if env.delwin_ok w.win then (removeWindow reg name, DelwinRes.ok)
    else (reg, DelwinRes.errRelease)

/-- The fixed attribute-name table `zcurses_attributes`.  The bitmask
constants `A_BLINK` .. `A_UNDERLINE` the C table pairs them with are
platform constants of the external library; the toggles are therefore
recorded by name in the operation trace. -/
def zcurses_attributes : List String :=
  ["blink", "bold", "dim", "reverse", "standout", "underline"]

/-- One observable effect applied to a window: `wattron`, `wattroff`, or
`wcolor_set` with the chosen pair identifier. -/
inductive WinOp
  | attron (a : String)
  | attroff (a : String)
  | colorset (cp : Nat)
deriving DecidableEq, Repr

/-- Embedding of `zcurses_attribute` (curses.c lines 216-239): look the
name up in the fixed table and emit the corresponding toggle, or fail
(`none`) when the name is unknown. -/
def zcurses_attribute (a : String) (op : Nat) : Option WinOp :=
  if zcurses_attributes.contains a then
    some (if op = ZCURSES_ATTRON then WinOp.attron a else WinOp.attroff a)
  else none

/-- One iteration of the token loop of `zccmd_attr` (curses.c lines
663-690): a token containing a slash is routed to `zcurses_colorset`; a
leading `-` turns an attribute off, a leading `+` or no sign turns it
on.  Returns the new color state, the trace of applied operations, and
the token's error flag. -/
def attrStep (env : CursesEnv) (s : ColorState) (tok : String) :
    ColorState × List WinOp × Bool :=
  if tok.data.contains '/' then
    match zcurses_colorset env s tok with
    | (s1, some cp, e) => (s1, [WinOp.colorset cp], e)
    | (s1, none, e) => (s1, [], e)
  else
    match tok.data with
    | '-' :: rest =>
      match zcurses_attribute ⟨rest⟩ ZCURSES_ATTROFF with
      | some o => (s, [o], false)
      | none => (s, [], true)
    | '+' :: rest =>
      match zcurses_attribute ⟨rest⟩ ZCURSES_ATTRON with
      | some o => (s, [o], false)
      | none => (s, [], true)
    | _ =>
      match zcurses_attribute tok ZCURSES_ATTRON with
      | some o => (s, [o], false)
      | none => (s, [], true)

/-- The token loop of `zccmd_attr` with its `ret` accumulator: `ret` is
set on any failing token and the loop continues with the next token. -/
def attrLoop (env : CursesEnv) (s : ColorState) (ret : Bool) :
    List String → ColorState × List WinOp × Bool
  | [] => (s, [], ret)
  | t :: ts =>
      match attrStep env s t with
      | (s1, ops1, e1) =>
        match attrLoop env s1 (ret || e1) ts with
        | (s2, ops2, e2) => (s2, ops1 ++ ops2, e2)

/-- Embedding of `zccmd_attr` (curses.c lines 644-692): validate the
window, then run every token through the loop. -/
def zccmd_attr (env : CursesEnv) (reg : List ZCWin) (s : ColorState)
    (name : String) (toks : List String) : ColorState × List WinOp × Bool :=
  match zcurses_validate_window reg name ZCURSES_USED with
  | (none, _) => (s, [], true)
  | (some _, _) => attrLoop env s false toks

/-- Greedily consume decimal digits, accumulating the value; returns the
value and the unconsumed remainder, embedding the digit loop of
`zstrtol` with its `endptr`. -/
def digitsVal : List Char → Nat → Nat × List Char
  | [], acc => (acc, [])
  | c :: cs, acc =>
      if c.isDigit then digitsVal cs (acc * 10 + (c.toNat - 48))
      else (acc, c :: cs)

/-- Model of `zstrtol(arg, &endptr, 10)` followed by the `*endptr` check
in `zccmd_scroll`: an optional sign, then digits; the whole string must
be consumed.  As in the C helper, an empty digit sequence yields 0. -/
def zstrtolModel (s : String) : Option Int :=
  match s.data with
  | '-' :: rest =>
      match digitsVal rest 0 with
      | (v, []) => some (-(v : Int))
      | _ => none
  | '+' :: rest =>
      match digitsVal rest 0 with
      | (v, []) => some ((v : Int))
      | _ => none
  | cs =>
      match digitsVal cs 0 with
      | (v, []) => some ((v : Int))
      | _ => none

/-- Embedding of the mode dispatch of `zccmd_scroll` (curses.c lines
710-734) on the already-resolved window.  `lib` is the library's
per-window `scrollok` setting; on a valid handle `scrollok` always
succeeds (it can only fail on a null window pointer), so the `ERR`
checks of the `on`/`off` branches never fire and the call is embedded as
a plain state update.  Returns the updated window record, the updated
library scroll setting, and the error flag. -/
def zccmd_scroll (env : CursesEnv) (w : ZCWin) (lib : Bool) (arg : String) :
    ZCWin × Bool × Bool :=
  if arg = "on" then ({ w with scroll := true }, true, false)
  else if arg = "off" then ({ w with scroll := false }, false, false)
  else
    match zstrtolModel arg with
    | none => (w, lib, true)
    | some n =>
        let lib1 := if w.scroll then lib else true
        let err := !env.wscrl_ok n
        let lib2 := if w.scroll then lib1 else false
        (w, lib2, err)

/-- Modelled from the spec: the keypad name table `keypad_names` lives
in the generated header `curses_keys.h`, which is not part of the source
sample.  The spec describes it as "a fixed table of named keys (arrow
keys, page keys, etc.)"; this table carries those keys with their
standard curses codes. -/
def keypad_names : List (String × Nat) :=
  [("DOWN", 258), ("UP", 259), ("LEFT", 260), ("RIGHT", 261),
   ("HOME", 262), ("BACKSPACE", 263), ("NPAGE", 338), ("PPAGE", 339)]

/-- The first function-key code `KEY_F0`, the standard curses value
octal 0410. -/
def KEY_F0 : Nat := 264

/-- Embedding of the symbolic-name synthesis of `zccmd_input` (curses.c
lines 819-832): look the key code up in the keypad table (first match on
the number); if absent, codes strictly above `keyF0` become
`"F<offset>"` and all others the decimal string of the raw code. -/
def keypadName (table : List (String × Nat)) (keyF0 : Nat) (code : Nat) : String :=
  match table.find? (fun p => p.2 == code) with
  | some p => p.1
  | none =>
      if keyF0 < code then "F" ++ toString (code - keyF0)
      else toString code

/-- The boolean failure pattern of the error list produced by a run of
distinct fresh allocations: with `cap` the platform capacity and `base`
the counter value before the run, the i-th entry (0-based) reports
whether the (base + i + 1)-st pair identifier is out of range. -/
def expectedRets (cap : Nat) : Nat → Nat → List Bool
  | _, 0 => []
  | base, n + 1 => decide (cap ≤ base + 1) :: expectedRets cap (base + 1) n

/-- Example environment for witnesses: capacity 4, every library call
succeeds, `newwin` hands out handle 7. -/
def exEnv : CursesEnv :=
  ⟨4, fun _ _ _ => true, fun _ => true, fun _ => true, fun _ _ _ _ => some 7, fun _ => true⟩

/-- Example environment whose `delwin` always fails. -/
def exEnvRelFail : CursesEnv :=
  ⟨4, fun _ _ _ => true, fun _ => true, fun _ => false, fun _ _ _ _ => some 7, fun _ => true⟩

/-- Example environment with pair capacity 1, so the very first fresh
allocation already reaches `COLOR_PAIRS`. -/
def exEnvFull : CursesEnv :=
  ⟨1, fun _ _ _ => true, fun _ => true, fun _ => true, fun _ _ _ _ => some 7, fun _ => true⟩

/-- Example permanent window (the `stdscr` record created by init). -/
def exWinRoot : ZCWin := ⟨0, "stdscr", true, false⟩

/-- Example ordinary window. -/
def exWinW : ZCWin := ⟨5, "w", false, false⟩

/-- Example registry holding the permanent window and one ordinary one. -/
def exReg : List ZCWin := [exWinRoot, exWinW]

/-!  Helper lemmas shared by the claim theorems. -/

theorem lookupPair_insertPair (ps : List (String × Nat)) (key : String) (v : Nat)
    (key2 : String) :
    lookupPair (insertPair ps key v) key2 =
      if key = key2 then some v else lookupPair ps key2 := by
  induction ps with
  | nil =>
      by_cases h : key = key2 <;> simp [insertPair, lookupPair, h]
  | cons p ps ih =>
      obtain ⟨k, w⟩ := p
      by_cases hk : k = key
      · subst hk
        by_cases h : k = key2 <;> simp [insertPair, lookupPair, h]
      · by_cases h : k = key2
        · subst h
          have hne : ¬ key = k := fun he => hk he.symm
          simp [insertPair, lookupPair, hk, hne]
        · simp [insertPair, lookupPair, hk, h, ih]

theorem validate_used_found (reg : List ZCWin) (name : String) (w : ZCWin)
    (hn : name ≠ "") (hw : zcurses_getwindowbyname reg name = some w) :
    zcurses_validate_window reg name ZCURSES_USED = (some w, 0) := by
  simp [zcurses_validate_window, hn, hw, ZCURSES_USED,
        (by decide : Nat.testBit 2 0 = false), (by decide : Nat.testBit 2 1 = true)]

theorem validate_used_missing (reg : List ZCWin) (name : String)
    (hn : name ≠ "") (hw : zcurses_getwindowbyname reg name = none) :
    zcurses_validate_window reg name ZCURSES_USED = (none, ZCURSES_EUNDEFINED) := by
  simp [zcurses_validate_window, hn, hw, ZCURSES_USED,
        (by decide : Nat.testBit 2 0 = false), (by decide : Nat.testBit 2 1 = true)]

theorem validate_unused_found (reg : List ZCWin) (name : String) (w : ZCWin)
    (hn : name ≠ "") (hw : zcurses_getwindowbyname reg name = some w) :
    zcurses_validate_window reg name ZCURSES_UNUSED = (none, ZCURSES_EDEFINED) := by
  simp [zcurses_validate_window, hn, hw, ZCURSES_UNUSED,
        (by decide : Nat.testBit 1 0 = true)]

/-- A post-bypass cache hit returns the cached identifier and leaves the
state unchanged. -/
theorem colorset_hit (env : CursesEnv) (s : ColorState) (key : String) (cp : Nat)
    (hphase : s.phase ≠ 1) (hcache : lookupPair s.pairs key = some cp) :
    zcurses_colorset env s key = (s, some cp, !env.wcolor_set_ok cp) := by
  simp [zcurses_colorset, hphase, hcache]

/-- A fresh allocation that stays below capacity and whose `init_pair`
succeeds stores the incremented counter as the key's identifier. -/
theorem colorset_alloc_ok (env : CursesEnv) (s : ColorState) (key fg bg : String)
    (f b : Nat) (henter : s.phase = 1 ∨ lookupPair s.pairs key = none)
    (hsplit : splitFirstSlash key = some (fg, bg))
    (hf : zcurses_color fg = some f) (hb : zcurses_color bg = some b)
    (hcap : s.next_cp + 1 < env.color_pairs)
    (hip : env.init_pair_ok (s.next_cp + 1) f b = true) :
    zcurses_colorset env s key =
      (⟨2, s.next_cp + 1, insertPair s.pairs key (s.next_cp + 1)⟩,
       some (s.next_cp + 1), !env.wcolor_set_ok (s.next_cp + 1)) := by
  have hinner : ¬ (env.color_pairs ≤ s.next_cp + 1 ∨
      env.init_pair_ok (s.next_cp + 1) f b = false) := by
    push_neg
    exact ⟨hcap, by simp [hip]⟩
  simp [zcurses_colorset, henter, hsplit, hf, hb, hinner]

/-- A fresh allocation that hits the capacity bound or whose `init_pair`
is rejected fails with the counter left incremented. -/
theorem colorset_alloc_fail (env : CursesEnv) (s : ColorState) (key fg bg : String)
    (f b : Nat) (henter : s.phase = 1 ∨ lookupPair s.pairs key = none)
    (hsplit : splitFirstSlash key = some (fg, bg))
    (hf : zcurses_color fg = some f) (hb : zcurses_color bg = some b)
    (hfail : env.color_pairs ≤ s.next_cp + 1 ∨
      env.init_pair_ok (s.next_cp + 1) f b = false) :
    zcurses_colorset env s key = (⟨2, s.next_cp + 1, s.pairs⟩, none, true) := by
  simp [zcurses_colorset, henter, hsplit, hf, hb, hfail]

/-- Over a run of pairwise-distinct valid keys none of which is cached,
with a library that accepts every pair definition, the error flags are
exactly the capacity pattern `expectedRets` starting at the current
counter value. -/
theorem colorsetRun_fresh (env : CursesEnv)
    (hip : ∀ p f b, env.init_pair_ok p f b = true)
    (hws : ∀ p, env.wcolor_set_ok p = true) :
    ∀ (keys : List String) (s : ColorState),
      keys.Nodup →
      (∀ k ∈ keys, validKey k = true) →
      (∀ k ∈ keys, lookupPair s.pairs k = none) →
      (colorsetRun env s keys).2 = expectedRets env.color_pairs s.next_cp keys.length := by
  intro keys
  induction keys with
  | nil =>
      intro s _ _ _
      rfl
  | cons k ks ih =>
      intro s hnd hv hm
      have hlk : lookupPair s.pairs k = none := hm k (by simp)
      have hvk : validKey k = true := hv k (by simp)
      have hnotmem : k ∉ ks := (List.nodup_cons.mp hnd).1
      have hndks : ks.Nodup := (List.nodup_cons.mp hnd).2
      have hvks : ∀ k2 ∈ ks, validKey k2 = true := fun k2 h2 => hv k2 (by simp [h2])
      rcases hsp : splitFirstSlash k with _ | ⟨fg, bg⟩
      · rw [validKey, hsp] at hvk
        cases hvk
      · have hfb : (zcurses_color fg).isSome = true ∧ (zcurses_color bg).isSome = true := by
          rw [validKey, hsp] at hvk
          exact Bool.and_eq_true_iff.mp hvk
        obtain ⟨f, hf⟩ := Option.isSome_iff_exists.mp hfb.1
        obtain ⟨b, hb⟩ := Option.isSome_iff_exists.mp hfb.2
        by_cases hcap : env.color_pairs ≤ s.next_cp + 1
        · have hstep := colorset_alloc_fail env s k fg bg f b (Or.inr hlk) hsp hf hb
            (Or.inl hcap)
          have hm2 : ∀ k2 ∈ ks,
              lookupPair (⟨2, s.next_cp + 1, s.pairs⟩ : ColorState).pairs k2 = none :=
            fun k2 h2 => hm k2 (by simp [h2])
          have := ih ⟨2, s.next_cp + 1, s.pairs⟩ hndks hvks hm2
          simp [colorsetRun, hstep, this, expectedRets, hcap]
        · have hlt : s.next_cp + 1 < env.color_pairs := Nat.not_le.mp hcap
          have hstep := colorset_alloc_ok env s k fg bg f b (Or.inr hlk) hsp hf hb hlt
            (hip _ _ _)
          have hm2 : ∀ k2 ∈ ks,
              lookupPair (insertPair s.pairs k (s.next_cp + 1)) k2 = none := by
            intro k2 h2
            rw [lookupPair_insertPair]
            have hne : k ≠ k2 := fun he => hnotmem (he ▸ h2)
            simp [hne]
            exact hm k2 (by simp [h2])
          have := ih ⟨2, s.next_cp + 1, insertPair s.pairs k (s.next_cp + 1)⟩ hndks hvks hm2
          simp [colorsetRun, hstep, this, expectedRets, hcap, hws]

/-- Position `i` of the capacity pattern is the out-of-range test for
the `(base + i + 1)`-st identifier. -/
theorem expectedRets_getD (cap : Nat) :
    ∀ (n base i : Nat), i < n →
      (expectedRets cap base n).getD i false = decide (cap ≤ base + i + 1) := by
  intro n
  induction n with
  | zero =>
      intro base i hi
      exact absurd hi (Nat.not_lt_zero i)
  | succ n ih =>
      intro base i hi
      cases i with
      | zero => simp [expectedRets]
      | succ i =>
          have hi2 : i < n := Nat.lt_of_succ_lt_succ hi
          rw [expectedRets]
          simp only [List.getD_cons_succ]
          rw [ih (base + 1) i hi2]
          rw [decide_eq_decide]
          omega

/-!  Claim theorems. -/

/-- C4: when the name resolves to a non-permanent window and the handle
release (`delwin`) fails, `zccmd_delwin` returns the generic failure and
leaves the registry untouched: the entry is not removed. -/
theorem delwin_release_failure_keeps_entry (env : CursesEnv) (reg : List ZCWin)
    (name : String) (w : ZCWin) (hn : name ≠ "")
    (hw : zcurses_getwindowbyname reg name = some w)
    (hperm : w.permanent = false) (hrel : env.delwin_ok w.win = false) :
    zccmd_delwin env reg name = (reg, DelwinRes.errRelease) := by
  simp [zccmd_delwin, validate_used_found reg name w hn hw, hperm, hrel]

/-- Witness for C4 at a concrete registry and environment. -/
theorem delwin_release_failure_keeps_entry_witness :
    ("w" : String) ≠ "" ∧
    zcurses_getwindowbyname exReg "w" = some exWinW ∧
    exWinW.permanent = false ∧
    exEnvRelFail.delwin_ok exWinW.win = false ∧
    zccmd_delwin exEnvRelFail exReg "w" = (exReg, DelwinRes.errRelease) :=
  ⟨by decide, by rfl, by rfl, by rfl,
   delwin_release_failure_keeps_entry exEnvRelFail exReg "w" exWinW
     (by decide) (by rfl) (by rfl) (by rfl)⟩

/-- C5: creating a window whose non-empty name is already present in the
registry fails with the `AlreadyDefined` classification
(`ZCURSES_EDEFINED`) and registers nothing: the registry is returned
unchanged. -/
theorem addwin_existing_name_fails (env : CursesEnv) (reg : List ZCWin)
    (name : String) (w : ZCWin) (nlines ncols begin_y begin_x : Int)
    (hn : name ≠ "") (hw : zcurses_getwindowbyname reg name = some w) :
    zccmd_addwin env reg name nlines ncols begin_y begin_x =
      (reg, AddwinRes.errValidate ZCURSES_EDEFINED) := by
  simp [zccmd_addwin, validate_unused_found reg name w hn hw, ZCURSES_EDEFINED]

/-- Witness for C5: re-creating `"w"` over `exReg` fails with the
`AlreadyDefined` error code 2. -/
theorem addwin_existing_name_fails_witness :
    ("w" : String) ≠ "" ∧
    zcurses_getwindowbyname exReg "w" = some exWinW ∧
    zccmd_addwin exEnv exReg "w" 5 5 0 0 =
      (exReg, AddwinRes.errValidate ZCURSES_EDEFINED) :=
  ⟨by decide, by rfl,
   addwin_existing_name_fails exEnv exReg "w" exWinW 5 5 0 0 (by decide) (by rfl)⟩

/-- C6: destroying a name absent from the registry fails with the
`Undefined` classification (`ZCURSES_EUNDEFINED`), and destroying a
window that exists but is permanent fails with the distinct
"can't be deleted" refusal; the registry is unchanged either way. -/
theorem delwin_undefined_or_permanent :
    (∀ (env : CursesEnv) (reg : List ZCWin) (name : String), name ≠ "" →
       zcurses_getwindowbyname reg name = none →
       zccmd_delwin env reg name = (reg, DelwinRes.errValidate ZCURSES_EUNDEFINED)) ∧
    (∀ (env : CursesEnv) (reg : List ZCWin) (name : String) (w : ZCWin), name ≠ "" →
       zcurses_getwindowbyname reg name = some w → w.permanent = true →
       zccmd_delwin env reg name = (reg, DelwinRes.errPermanent)) := by
  constructor
  · intro env reg name hn hw
    simp [zccmd_delwin, validate_used_missing reg name hn hw]
  · intro env reg name w hn hw hperm
    simp [zccmd_delwin, validate_used_found reg name w hn hw, hperm]

/-- Witness for C6: deleting the absent `"x"` reports error code 3, and
deleting the permanent `"stdscr"` reports the refusal. -/
theorem delwin_undefined_or_permanent_witness :
    ("x" : String) ≠ "" ∧ zcurses_getwindowbyname exReg "x" = none ∧
    zccmd_delwin exEnv exReg "x" = (exReg, DelwinRes.errValidate ZCURSES_EUNDEFINED) ∧
    ("stdscr" : String) ≠ "" ∧ zcurses_getwindowbyname exReg "stdscr" = some exWinRoot ∧
    exWinRoot.permanent = true ∧
    zccmd_delwin exEnv exReg "stdscr" = (exReg, DelwinRes.errPermanent) :=
  ⟨by decide, by rfl,
   delwin_undefined_or_permanent.1 exEnv exReg "x" (by decide) (by rfl),
   by decide, by rfl, by rfl,
   delwin_undefined_or_permanent.2 exEnv exReg "stdscr" exWinRoot
     (by decide) (by rfl) (by rfl)⟩

/-- C2 counterexample: the claim says codes at or above `KEY_F0` not in
the table decode to `"F<offset>"`, but the code tests `keypadnum >
KEY_F0` strictly, so a code equal to `KEY_F0` that misses the table is
printed as its raw decimal string, not as `"F0"`. -/
theorem keypadName_at_base_counterexample :
    keypad_names.find? (fun p => p.2 == KEY_F0) = none ∧
    KEY_F0 ≥ KEY_F0 ∧
    keypadName keypad_names KEY_F0 KEY_F0 ≠ "F" ++ toString (KEY_F0 - KEY_F0) := by
  decide

/-- C2 (amended): for a special key code missing from the keypad table,
a code strictly above `KEY_F0` decodes to `"F<offset>"` with the offset
from the function-key base, and a code at or below `KEY_F0` decodes to
the decimal string of the raw code. -/
theorem keypadName_fallback (table : List (String × Nat)) (keyF0 code : Nat)
    (hmiss : table.find? (fun p => p.2 == code) = none) :
    (keyF0 < code → keypadName table keyF0 code = "F" ++ toString (code - keyF0)) ∧
    (code ≤ keyF0 → keypadName table keyF0 code = toString code) := by
  constructor
  · intro h
    simp [keypadName, hmiss, h]
  · intro h
    simp [keypadName, hmiss, Nat.not_lt.mpr h]

/-- Witness for C2: code `KEY_F0 + 10 = 274` misses the table and
decodes to `"F10"`, the spec's example. -/
theorem keypadName_fallback_witness :
    keypad_names.find? (fun p => p.2 == (274 : Nat)) = none ∧
    KEY_F0 < 274 ∧
    keypadName keypad_names KEY_F0 274 = "F" ++ toString (274 - KEY_F0) :=
  ⟨by decide, by decide,
   (keypadName_fallback keypad_names KEY_F0 274 (by decide)).1 (by decide)⟩

/-- C8: a numeric scroll leaves the persisted `ZCWF_SCROLL` flag exactly
as it was.  If the flag was off, the library's scroll mode is enabled
only around the single `wscrl` call and is off again when the command
returns; if the flag was on, the window record and the library mode are
both left untouched (no `scrollok` toggling happens). -/
theorem scroll_numeric_preserves_flag (env : CursesEnv) (w : ZCWin) (lib : Bool)
    (arg : String) (n : Int) (hparse : zstrtolModel arg = some n) :
    (w.scroll = false →
       zccmd_scroll env w lib arg = (w, false, !env.wscrl_ok n)) ∧
    (w.scroll = true →
       zccmd_scroll env w lib arg = (w, lib, !env.wscrl_ok n)) := by
  have hon : arg ≠ "on" := by
    intro he; rw [he] at hparse; simp [zstrtolModel, digitsVal] at hparse
  have hoff : arg ≠ "off" := by
    intro he; rw [he] at hparse; simp [zstrtolModel, digitsVal] at hparse
  constructor
  · intro hs
    simp [zccmd_scroll, hon, hoff, hparse, hs]
  · intro hs
    simp [zccmd_scroll, hon, hoff, hparse, hs]

/-- Witness for C8: scrolling `"w"` by 3 with the flag off leaves the
flag and the library mode off; with the flag on, both window and
library mode are unchanged. -/
theorem scroll_numeric_preserves_flag_witness :
    zstrtolModel "3" = some 3 ∧
    exWinW.scroll = false ∧
    zccmd_scroll exEnv exWinW false "3" = (exWinW, false, false) ∧
    (⟨5, "w", false, true⟩ : ZCWin).scroll = true ∧
    zccmd_scroll exEnv ⟨5, "w", false, true⟩ true "3" = (⟨5, "w", false, true⟩, true, false) :=
  ⟨by decide, by rfl,
   (scroll_numeric_preserves_flag exEnv exWinW false "3" 3 (by decide)).1 (by rfl),
   by rfl,
   (scroll_numeric_preserves_flag exEnv ⟨5, "w", false, true⟩ true "3" 3 (by decide)).2 (by rfl)⟩

/-- C1: once the bypass phase is over, resolving a key that is cached
applies the cached pair identifier unchanged and allocates nothing (the
state, and in particular `next_cp` and the cache, are untouched), so
repeated resolutions of the same key keep returning the same
identifier; and while the bypass phase is active (`zc_color_phase = 1`,
set by the first `init` that enables color), a resolution of a valid
key allocates the fresh identifier `next_cp + 1` regardless of any
pre-existing cache entry for that key. -/
theorem colorset_cached_stable_and_bypass_fresh :
    (∀ (env : CursesEnv) (s : ColorState) (key : String) (cp : Nat),
       s.phase ≠ 1 → lookupPair s.pairs key = some cp →
       zcurses_colorset env s key = (s, some cp, !env.wcolor_set_ok cp)) ∧
    (∀ (env : CursesEnv) (s : ColorState) (key fg bg : String) (f b : Nat),
       s.phase = 1 →
       splitFirstSlash key = some (fg, bg) →
       zcurses_color fg = some f → zcurses_color bg = some b →
       s.next_cp + 1 < env.color_pairs →
       env.init_pair_ok (s.next_cp + 1) f b = true →
       zcurses_colorset env s key =
         (⟨2, s.next_cp + 1, insertPair s.pairs key (s.next_cp + 1)⟩,
          some (s.next_cp + 1), !env.wcolor_set_ok (s.next_cp + 1))) := by
  constructor
  · intro env s key cp hphase hcache
    simp [zcurses_colorset, hphase, hcache]
  · intro env s key fg bg f b hphase hsplit hf hb hcap hip
    have hcond : s.phase = 1 ∨ lookupPair s.pairs key = none := Or.inl hphase
    have hinner : ¬ (env.color_pairs ≤ s.next_cp + 1 ∨
        env.init_pair_ok (s.next_cp + 1) f b = false) := by
      push_neg
      exact ⟨hcap, by simp [hip]⟩
    simp [zcurses_colorset, hcond, hsplit, hf, hb, hinner]

/-- Witness for C1.  First conjunct: with phase 2 and `"red/blue"`
cached at 9, resolving applies 9 and leaves the state alone.  Second
conjunct: with phase 1 and the same stale entry, resolving `"red/blue"`
allocates the fresh identifier 1 and overwrites the entry. -/
theorem colorset_cached_stable_and_bypass_fresh_witness :
    ((⟨2, 3, [("red/blue", 9)]⟩ : ColorState).phase ≠ 1 ∧
     lookupPair [("red/blue", 9)] "red/blue" = some 9 ∧
     zcurses_colorset exEnv ⟨2, 3, [("red/blue", 9)]⟩ "red/blue" =
       (⟨2, 3, [("red/blue", 9)]⟩, some 9, false)) ∧
    ((⟨1, 0, [("red/blue", 9)]⟩ : ColorState).phase = 1 ∧
     splitFirstSlash "red/blue" = some ("red", "blue") ∧
     zcurses_color "red" = some 1 ∧ zcurses_color "blue" = some 4 ∧
     0 + 1 < exEnv.color_pairs ∧
     exEnv.init_pair_ok (0 + 1) 1 4 = true ∧
     zcurses_colorset exEnv ⟨1, 0, [("red/blue", 9)]⟩ "red/blue" =
       (⟨2, 1, [("red/blue", 1)]⟩, some 1, false)) :=
  ⟨⟨by decide, by decide,
    colorset_cached_stable_and_bypass_fresh.1 exEnv ⟨2, 3, [("red/blue", 9)]⟩
      "red/blue" 9 (by decide) (by decide)⟩,
   ⟨by rfl, by decide, by rfl, by rfl, by decide, by rfl,
    colorset_cached_stable_and_bypass_fresh.2 exEnv ⟨1, 0, [("red/blue", 9)]⟩
      "red/blue" "red" "blue" 1 4 rfl (by decide) (by rfl) (by rfl)
      (by decide) (by rfl)⟩⟩

/-- C9: an allocation attempt that reaches the counter increment and
then fails — the incremented counter meets `COLOR_PAIRS`, or
`init_pair` rejects the pair — leaves the counter incremented (no
rollback) and the cache unchanged, so each such failed attempt
permanently consumes one pair identifier. -/
theorem colorset_failed_alloc_consumes_id (env : CursesEnv) (s : ColorState)
    (key fg bg : String) (f b : Nat)
    (henter : s.phase = 1 ∨ lookupPair s.pairs key = none)
    (hsplit : splitFirstSlash key = some (fg, bg))
    (hf : zcurses_color fg = some f) (hb : zcurses_color bg = some b)
    (hfail : env.color_pairs ≤ s.next_cp + 1 ∨
      env.init_pair_ok (s.next_cp + 1) f b = false) :
    zcurses_colorset env s key = (⟨2, s.next_cp + 1, s.pairs⟩, none, true) := by
  simp [zcurses_colorset, henter, hsplit, hf, hb, hfail]

/-- Witness for C9: with capacity 1 the first fresh allocation fails,
yet the counter advances from 0 to 1 and the cache stays empty. -/
theorem colorset_failed_alloc_consumes_id_witness :
    ((⟨2, 0, []⟩ : ColorState).phase = 1 ∨ lookupPair [] "red/blue" = none) ∧
    splitFirstSlash "red/blue" = some ("red", "blue") ∧
    zcurses_color "red" = some 1 ∧ zcurses_color "blue" = some 4 ∧
    (exEnvFull.color_pairs ≤ 0 + 1 ∨ exEnvFull.init_pair_ok (0 + 1) 1 4 = false) ∧
    zcurses_colorset exEnvFull ⟨2, 0, []⟩ "red/blue" = (⟨2, 1, []⟩, none, true) :=
  ⟨Or.inr (by decide), by decide, by rfl, by rfl, Or.inl (by decide),
   colorset_failed_alloc_consumes_id exEnvFull ⟨2, 0, []⟩ "red/blue" "red" "blue" 1 4
     (Or.inr (by decide)) (by decide) (by rfl) (by rfl) (Or.inl (by decide))⟩

/-- C10: the bypass phase ends on the very first resolution attempt
regardless of its outcome — whenever `zc_color_phase = 1` on entry, it
is 2 afterwards, even for a malformed or unknown key — and once the
phase is past the bypass, a cache hit is served from the cache: the
cached identifier is applied and the state (so in particular the
counter) is unchanged, even if that identifier predates the current
session. -/
theorem colorset_bypass_clears_once :
    (∀ (env : CursesEnv) (s : ColorState) (key : String),
       s.phase = 1 → (zcurses_colorset env s key).1.phase = 2) ∧
    (∀ (env : CursesEnv) (s : ColorState) (key : String) (cp : Nat),
       s.phase ≠ 1 → lookupPair s.pairs key = some cp →
       (zcurses_colorset env s key).2.1 = some cp ∧
       (zcurses_colorset env s key).1 = s) := by
  constructor
  · intro env s key hphase
    rw [zcurses_colorset, if_pos (Or.inl hphase)]
    repeat' split
    all_goals try rfl
    all_goals simp [apply_ite]
  · intro env s key cp hphase hcache
    refine ⟨?_, ?_⟩ <;> simp [zcurses_colorset, hphase, hcache]

/-- Witness for C10: a malformed key (`"nocolor"`, no slash) in phase 1
fails yet flips the phase to 2; afterwards a stale cached entry for
`"red/blue"` is returned as is, with the state unchanged. -/
theorem colorset_bypass_clears_once_witness :
    ((⟨1, 0, [("red/blue", 9)]⟩ : ColorState).phase = 1 ∧
     (zcurses_colorset exEnv ⟨1, 0, [("red/blue", 9)]⟩ "nocolor").1.phase = 2) ∧
    ((⟨2, 0, [("red/blue", 9)]⟩ : ColorState).phase ≠ 1 ∧
     lookupPair [("red/blue", 9)] "red/blue" = some 9 ∧
     (zcurses_colorset exEnv ⟨2, 0, [("red/blue", 9)]⟩ "red/blue").2.1 = some 9 ∧
     (zcurses_colorset exEnv ⟨2, 0, [("red/blue", 9)]⟩ "red/blue").1 =
       ⟨2, 0, [("red/blue", 9)]⟩) :=
  ⟨⟨by rfl,
    colorset_bypass_clears_once.1 exEnv ⟨1, 0, [("red/blue", 9)]⟩ "nocolor" rfl⟩,
   ⟨by decide, by decide,
    (colorset_bypass_clears_once.2 exEnv ⟨2, 0, [("red/blue", 9)]⟩ "red/blue" 9
       (by decide) (by decide)).1,
    (colorset_bypass_clears_once.2 exEnv ⟨2, 0, [("red/blue", 9)]⟩ "red/blue" 9
       (by decide) (by decide)).2⟩⟩

/-- Example key list for the capacity witness: five pairwise-distinct
valid fg/bg keys. -/
def exKeys : List String :=
  ["red/blue", "green/black", "white/cyan", "red/black", "blue/red"]

/-- C3: from the process-start color state (bypass phase, counter 0,
empty cache), running any sequence of pairwise-distinct valid keys
against a library that accepts every pair definition and application,
the n-th resolution (n = i + 1, 1-based) fails exactly when n exceeds
`COLOR_PAIRS - 1`: identifiers 1, 2, ... are handed out in order (pair
0 stays reserved) and the attempt whose counter value reaches
`COLOR_PAIRS` is the first to fail. -/
theorem colorset_capacity (env : CursesEnv) (keys : List String)
    (hip : ∀ p f b, env.init_pair_ok p f b = true)
    (hws : ∀ p, env.wcolor_set_ok p = true)
    (hnd : keys.Nodup) (hv : ∀ k ∈ keys, validKey k = true) :
    ∀ i, i < keys.length →
      (colorsetRun env ⟨1, 0, []⟩ keys).2.getD i false =
        decide (env.color_pairs - 1 < i + 1) := by
  intro i hi
  have hrun := colorsetRun_fresh env hip hws keys ⟨1, 0, []⟩ hnd hv (fun k _ => rfl)
  rw [hrun, expectedRets_getD env.color_pairs keys.length 0 i hi, decide_eq_decide]
  omega

/-- Witness for C3 with capacity 4 and five distinct keys: the second
resolution (n = 2 ≤ 3) succeeds and the fifth (n = 5 > 3) fails. -/
theorem colorset_capacity_witness :
    exKeys.Nodup ∧ (∀ k ∈ exKeys, validKey k = true) ∧
    (1 : Nat) < exKeys.length ∧ (4 : Nat) < exKeys.length ∧
    (colorsetRun exEnv ⟨1, 0, []⟩ exKeys).2.getD 1 false =
      decide (exEnv.color_pairs - 1 < 1 + 1) ∧
    (colorsetRun exEnv ⟨1, 0, []⟩ exKeys).2.getD 4 false =
      decide (exEnv.color_pairs - 1 < 4 + 1) :=
  ⟨by decide, by decide, by decide, by decide,
   colorset_capacity exEnv exKeys (fun _ _ _ => rfl) (fun _ => rfl)
     (by decide) (by decide) 1 (by decide),
   colorset_capacity exEnv exKeys (fun _ _ _ => rfl) (fun _ => rfl)
     (by decide) (by decide) 4 (by decide)⟩

/-- The loop accumulator only feeds the final result through a
disjunction: running with accumulator `ret` equals running with a clear
accumulator and or-ing `ret` into the final flag. -/
theorem attrLoop_acc (env : CursesEnv) :
    ∀ (l : List String) (s : ColorState) (ret : Bool),
      attrLoop env s ret l =
        ((attrLoop env s false l).1, (attrLoop env s false l).2.1,
         ret || (attrLoop env s false l).2.2) := by
  intro l
  induction l with
  | nil =>
      intro s ret
      simp [attrLoop]
  | cons t ts ih =>
      intro s ret
      rcases hstep : attrStep env s t with ⟨s1, ops1, e1⟩
      simp only [attrLoop, hstep]
      rw [ih s1 (ret || e1), ih s1 (false || e1)]
      simp [Bool.or_assoc]

/-- The loop over `l1 ++ l2` is the loop over `l1` followed by the loop
over `l2` from the reached state, with concatenated traces. -/
theorem attrLoop_append (env : CursesEnv) :
    ∀ (l1 l2 : List String) (s : ColorState) (ret : Bool),
      attrLoop env s ret (l1 ++ l2) =
        ((attrLoop env (attrLoop env s ret l1).1 (attrLoop env s ret l1).2.2 l2).1,
         (attrLoop env s ret l1).2.1 ++
           (attrLoop env (attrLoop env s ret l1).1 (attrLoop env s ret l1).2.2 l2).2.1,
         (attrLoop env (attrLoop env s ret l1).1 (attrLoop env s ret l1).2.2 l2).2.2) := by
  intro l1
  induction l1 with
  | nil =>
      intro l2 s ret
      simp [attrLoop]
  | cons t ts ih =>
      intro l2 s ret
      rcases hstep : attrStep env s t with ⟨s1, ops1, e1⟩
      simp only [List.cons_append, attrLoop, hstep]
      rw [List.append_eq, ih l2 s1 (ret || e1)]
      simp [List.append_assoc]

/-- C7: on a valid window the token batch is processed left-to-right
with no short-circuit: running `l1 ++ l2` equals running `l1`, then
running `l2` from the state `l1` reached (so every token of `l2` is
attempted even when `l1` already failed), the traces concatenate, and
the aggregate flag is the disjunction — failure exactly when at least
one of the two parts failed. -/
theorem attr_batch_no_short_circuit (env : CursesEnv) (reg : List ZCWin)
    (s : ColorState) (name : String) (w : ZCWin) (l1 l2 : List String)
    (hn : name ≠ "") (hw : zcurses_getwindowbyname reg name = some w) :
    zccmd_attr env reg s name (l1 ++ l2) =
      ((zccmd_attr env reg (zccmd_attr env reg s name l1).1 name l2).1,
       (zccmd_attr env reg s name l1).2.1 ++
         (zccmd_attr env reg (zccmd_attr env reg s name l1).1 name l2).2.1,
       ((zccmd_attr env reg s name l1).2.2 ||
         (zccmd_attr env reg (zccmd_attr env reg s name l1).1 name l2).2.2)) := by
  simp only [zccmd_attr, validate_used_found reg name w hn hw]
  rw [attrLoop_append env l1 l2 s false,
      attrLoop_acc env l2 (attrLoop env s false l1).1 (attrLoop env s false l1).2.2]

/-- Witness for C7: on window `"w"`, the failing token `"bogus"`
followed by `"bold"` still applies `bold` and reports overall failure;
the composition equality is applied at that concrete input. -/
theorem attr_batch_no_short_circuit_witness :
    ("w" : String) ≠ "" ∧
    zcurses_getwindowbyname exReg "w" = some exWinW ∧
    zccmd_attr exEnv exReg ⟨2, 0, []⟩ "w" (["bogus"] ++ ["bold"]) =
      ((zccmd_attr exEnv exReg (zccmd_attr exEnv exReg ⟨2, 0, []⟩ "w" ["bogus"]).1
          "w" ["bold"]).1,
       (zccmd_attr exEnv exReg ⟨2, 0, []⟩ "w" ["bogus"]).2.1 ++
         (zccmd_attr exEnv exReg (zccmd_attr exEnv exReg ⟨2, 0, []⟩ "w" ["bogus"]).1
           "w" ["bold"]).2.1,
       ((zccmd_attr exEnv exReg ⟨2, 0, []⟩ "w" ["bogus"]).2.2 ||
         (zccmd_attr exEnv exReg (zccmd_attr exEnv exReg ⟨2, 0, []⟩ "w" ["bogus"]).1
           "w" ["bold"]).2.2)) :=
  ⟨by decide, by rfl,
   attr_batch_no_short_circuit exEnv exReg ⟨2, 0, []⟩ "w" exWinW ["bogus"] ["bold"]
     (by decide) (by rfl)⟩

end ZCurses
